import Mathlib

/-!
# Port addressing and port state operations of `hpl_gpio.h`

Embedding of `src/same54/hal/include/hpl_gpio.h`.

* The three addressing macros `GPIO_PIN`, `GPIO_PORT`, `GPIO` are translated
  operator by operator.  A C `uint32_t` is a natural number below `2 ^ 32`;
  every operator that could leave that range (`<<`, `+`) is followed by an
  explicit reduction modulo `2 ^ 32` (`wrap32`).
* The enumerations `gpio_pull_mode`, `gpio_direction`, `gpio_port` are
  translated constructor by constructor, in the order of the header.
* The bodies of `_gpio_set_direction`, `_gpio_set_level`, `_gpio_toggle_level`
  and `_gpio_set_pin_pull_mode` live in `hpl/port/hpl_gpio_base.h`, which the
  header only includes; they are modelled from the specification.
-/

namespace HplGpio

/-! ## Machine arithmetic -/

/-- Reduction of an intermediate result to the range of `uint32_t`. -/
def wrap32 (x : Nat) : Nat := x % 2 ^ 32

/-! ## Addressing macros (hpl_gpio.h, lines 56-59) -/

/-- Macro `#define GPIO_PIN(n) (((n)&0x1Fu) << 0)` -/
def GPIO_PIN (n : Nat) : Nat := wrap32 ((n &&& 0x1F) <<< 0)

/-- Macro `#define GPIO_PORT(n) ((n) >> 5)` -/
def GPIO_PORT (n : Nat) : Nat := n >>> 5

/-- Macro `#define GPIO(port, pin) ((((port)&0x7u) << 5) + ((pin)&0x1Fu))` -/
def GPIO (port pin : Nat) : Nat :=
  wrap32 (wrap32 ((port &&& 0x7) <<< 5) + (pin &&& 0x1F))

/-- Macro `#define GPIO_PIN_FUNCTION_OFF 0xffffffff` -/
def GPIO_PIN_FUNCTION_OFF : Nat := 0xffffffff

/-! ## Enumerations (hpl_gpio.h, lines 64-79) -/

/-- PORT pull mode settings: `enum gpio_pull_mode`, enumerators in the order of the header. -/
inductive gpio_pull_mode where
  | GPIO_PULL_OFF
  | GPIO_PULL_UP
  | GPIO_PULL_DOWN
  deriving DecidableEq, Repr

/-- PORT direction settings: `enum gpio_direction`, enumerators in the order of the header. -/
inductive gpio_direction where
  | GPIO_DIRECTION_OFF
  | GPIO_DIRECTION_IN
  | GPIO_DIRECTION_OUT
  deriving DecidableEq, Repr

/-- PORT group abstraction: `enum gpio_port`, enumerators in the order of the header. -/
inductive gpio_port where
  | GPIO_PORTA
  | GPIO_PORTB
  | GPIO_PORTC
  | GPIO_PORTD
  | GPIO_PORTE
  deriving DecidableEq, Repr

/-- The integer value C assigns to each enumerator of `gpio_port`. -/
def gpio_port.val : gpio_port → Nat
  | .GPIO_PORTA => 0
  | .GPIO_PORTB => 1
  | .GPIO_PORTC => 2
  | .GPIO_PORTD => 3
  | .GPIO_PORTE => 4

/-! ## Port state operations

`hpl_gpio.h` only declares the state operations; their bodies are in
`hpl/port/hpl_gpio_base.h`.  The state and the operations below follow the
specification (sections 3, 4.3, 4.4 and 4.5).
-/

/-- Modelled from the spec: the state of one port group, whose register block
(`hpl/port/hpl_gpio_base.h` and the device headers) is missing.  Section 3 gives
each of the 32 pins of a group a Direction State (OFF, IN or OUT), a Pull Mode
(OFF, UP or DOWN) and a single-bit output latch. -/
structure PortGroup where
  direction : Fin 32 → gpio_direction
  pull_mode : Fin 32 → gpio_pull_mode
  out_latch : Fin 32 → Bool

/-- Modelled from the spec: the state of the Port Controller, one `PortGroup`
per Port Group (section 3: "All state lives in the underlying hardware
registers of each port group"); the register file itself is missing. -/
abbrev PortState := gpio_port → PortGroup

/-- Modelled from the spec: the body of `_gpio_set_direction`, missing with
`hpl/port/hpl_gpio_base.h`.  Section 4.3: "for every bit set in mask, sets that
pin's direction to the requested state"; bit `i` of the mask addresses pin `i`
of the group (section 3, Pin Mask).  Nothing else is written. -/
def _gpio_set_direction (s : PortState) (port : gpio_port) (mask : Nat)
    (direction : gpio_direction) : PortState :=
  fun g =>
    if g = port then
      { s g with
        direction := fun i => if mask.testBit i.val then direction else (s g).direction i }
    else s g

/-- Modelled from the spec: the body of `_gpio_toggle_level`, missing with
`hpl/port/hpl_gpio_base.h`.  Section 4.4: "flips the output latch bit for every
pin in mask, defined as an atomic XOR against the current output latch". -/
def _gpio_toggle_level (s : PortState) (port : gpio_port) (mask : Nat) : PortState :=
  fun g =>
    if g = port then
      { s g with
        out_latch := fun i => Bool.xor ((s g).out_latch i) (mask.testBit i.val) }
    else s g

/-- Modelled from the spec: the body of `_gpio_set_pin_pull_mode`, missing with
`hpl/port/hpl_gpio_base.h`.  Section 4.5: "single-pin only", the pin's pull mode
becomes `pull_mode`, and "setting pull_mode != OFF forces direction to IN for
that pin regardless of its prior state".  `pin` is the `uint8_t` pin number
within the group; a number that names none of the 32 pins changes nothing. -/
def _gpio_set_pin_pull_mode (s : PortState) (port : gpio_port) (pin : Nat)
    (pull_mode : gpio_pull_mode) : PortState :=
  fun g =>
    if g = port then
      { s g with
        pull_mode := fun i => if i.val = pin then pull_mode else (s g).pull_mode i
        direction := fun i =>
          if i.val = pin ∧ pull_mode ≠ gpio_pull_mode.GPIO_PULL_OFF then
            gpio_direction.GPIO_DIRECTION_IN
          else (s g).direction i }
    else s g

/-- The direction of pin `pin` of group `port` in state `s`. -/
def pin_direction (s : PortState) (port : gpio_port) (pin : Fin 32) : gpio_direction :=
  (s port).direction pin

/-- The output latch bit of pin `pin` of group `port` in state `s`. -/
def pin_latch (s : PortState) (port : gpio_port) (pin : Fin 32) : Bool :=
  (s port).out_latch pin

/-- A concrete state used to instantiate the theorems: every pin of every
group is an output, without pull, with the latch bit of even pins set. -/
def sample_state : PortState :=
  fun _ =>
    { direction := fun _ => gpio_direction.GPIO_DIRECTION_OUT
      pull_mode := fun _ => gpio_pull_mode.GPIO_PULL_OFF
      out_latch := fun i => i.val % 2 == 0 }

/-! ## Arithmetic reading of the macros -/

theorem land_0x1F (n : Nat) : n &&& 0x1F = n % 32 :=
  Nat.and_pow_two_sub_one_eq_mod n 5

theorem land_0x7 (n : Nat) : n &&& 0x7 = n % 8 :=
  Nat.and_pow_two_sub_one_eq_mod n 3

theorem GPIO_PIN_eq_mod (n : Nat) : GPIO_PIN n = n % 32 := by
  unfold GPIO_PIN wrap32
  rw [land_0x1F, Nat.shiftLeft_eq]
  omega

theorem GPIO_PORT_eq_div (n : Nat) : GPIO_PORT n = n / 32 := by
  unfold GPIO_PORT
  rw [Nat.shiftRight_eq_div_pow]

theorem GPIO_eq_arith (port pin : Nat) : GPIO port pin = 32 * (port % 8) + pin % 32 := by
  unfold GPIO wrap32
  rw [land_0x1F, land_0x7, Nat.shiftLeft_eq]
  omega

theorem GPIO_add_eq_lor (port pin : Nat) :
    ((port &&& 0x7) <<< 5) + (pin &&& 0x1F) = ((port &&& 0x7) <<< 5) ||| (pin &&& 0x1F) := by
  rw [land_0x1F, land_0x7, Nat.shiftLeft_eq, Nat.mul_comm]
  exact Nat.mul_add_lt_is_or (Nat.mod_lt pin (by decide)) (port % 8)

theorem GPIO_testBit (port pin j : Nat) :
    ( GPIO port pin).testBit j =
      if j < 5 then (decide (j < 5) && pin.testBit j)
      else (decide (j - 5 < 3) && port.testBit (j - 5)) := by
  rw [GPIO_eq_arith]
  have h := Nat.testBit_mul_pow_two_add (port % 8) (Nat.mod_lt pin (Nat.two_pow_pos 5)) j
  have e5 : (2 : Nat) ^ 5 = 32 := by decide
  rw [e5] at h
  rw [h]
  have hpin := Nat.testBit_mod_two_pow pin 5 j
  have hport := Nat.testBit_mod_two_pow port 3 (j - 5)
  have e3 : (2 : Nat) ^ 3 = 8 := by decide
  rw [e5] at hpin
  rw [e3] at hport
  rw [hpin, hport]

theorem gpio_port_val_le (port : gpio_port) : port.val ≤ 4 := by
  cases port <;> decide

theorem gpio_port_val_range (p : Nat) : (∃ port : gpio_port, port.val = p) ↔ p ≤ 4 := by
  constructor
  · rintro ⟨port, rfl⟩
    exact gpio_port_val_le port
  · intro hp
    have h : p = 0 ∨ p = 1 ∨ p = 2 ∨ p = 3 ∨ p = 4 := by omega
    rcases h with h | h | h | h | h <;> subst h
    · exact ⟨.GPIO_PORTA, rfl⟩
    · exact ⟨.GPIO_PORTB, rfl⟩
    · exact ⟨.GPIO_PORTC, rfl⟩
    · exact ⟨.GPIO_PORTD, rfl⟩
    · exact ⟨.GPIO_PORTE, rfl⟩

/-! ## Pin/port addressing -/

/-- C1: round trip of the pin identifier.  For every port `p` in 0..4 (the values
of `GPIO_PORTA` .. `GPIO_PORTE`) and every pin `n` in 0..31, decoding the
identifier `GPIO(p, n)` gives the pair back: `GPIO_PORT(GPIO(p, n)) = p` and
`GPIO_PIN(GPIO(p, n)) = n`. -/
theorem gpio_roundtrip (p n : Nat) (hp : p ≤ 4) (hn : n ≤ 31) :
    GPIO_PORT ( GPIO p n) = p ∧ GPIO_PIN ( GPIO p n) = n := by
  rw [GPIO_PORT_eq_div, GPIO_PIN_eq_mod, GPIO_eq_arith]
  omega

theorem gpio_roundtrip_witness :
    GPIO 4 31 = 159 ∧ GPIO_PORT 159 = 4 ∧ GPIO_PIN 159 = 31 ∧
      (GPIO_PORT ( GPIO 4 31) = 4 ∧ GPIO_PIN ( GPIO 4 31) = 31) :=
  ⟨by decide, by decide, by decide, gpio_roundtrip 4 31 (by decide) (by decide)⟩

/-- C2: bit layout of the identifier.  For every unsigned 32-bit `port` and `pin`,
`GPIO(port, pin) = 32 * (port mod 8) + (pin mod 32)`; the result is below 256,
its bits 0..4 are the low 5 bits of `pin`, its bits 5..7 are the low 3 bits of
`port`, and the addition of the macro never carries: the sum equals the bitwise
OR of `(port & 7) << 5` and `pin & 31`, and so does the value of the macro. -/
theorem gpio_bit_layout (port pin : Nat) (_ : port < 2 ^ 32) (_ : pin < 2 ^ 32) :
    GPIO port pin = 32 * (port % 8) + pin % 32 ∧
      GPIO port pin < 256 ∧
      (∀ i, i < 5 → ( GPIO port pin).testBit i = pin.testBit i) ∧
      (∀ i, i < 3 → ( GPIO port pin).testBit (5 + i) = port.testBit i) ∧
      ((port &&& 0x7) <<< 5) + (pin &&& 0x1F) = ((port &&& 0x7) <<< 5) ||| (pin &&& 0x1F) ∧
      GPIO port pin = ((port &&& 0x7) <<< 5) ||| (pin &&& 0x1F) := by
  have harith := GPIO_eq_arith port pin
  refine ⟨harith, by omega, ?_, ?_, GPIO_add_eq_lor port pin, ?_⟩
  · intro i hi
    rw [GPIO_testBit]
    simp [hi]
  · intro i hi
    rw [GPIO_testBit]
    have h5 : ¬ (5 + i < 5) := by omega
    have e : 5 + i - 5 = i := by omega
    simp [h5, e, hi]
  · rw [← GPIO_add_eq_lor, harith, land_0x1F, land_0x7, Nat.shiftLeft_eq]
    omega

theorem gpio_bit_layout_witness :
    GPIO 0xFFFFFFFF 0xFFFFFFE3 = 32 * (0xFFFFFFFF % 8) + 0xFFFFFFE3 % 32 ∧
      GPIO 0xFFFFFFFF 0xFFFFFFE3 < 256 ∧
      (∀ i, i < 5 → ( GPIO 0xFFFFFFFF 0xFFFFFFE3).testBit i = (0xFFFFFFE3 : Nat).testBit i) ∧
      (∀ i, i < 3 → ( GPIO 0xFFFFFFFF 0xFFFFFFE3).testBit (5 + i) = (0xFFFFFFFF : Nat).testBit i) ∧
      (((0xFFFFFFFF : Nat) &&& 0x7) <<< 5) + ((0xFFFFFFE3 : Nat) &&& 0x1F)
        = (((0xFFFFFFFF : Nat) &&& 0x7) <<< 5) ||| ((0xFFFFFFE3 : Nat) &&& 0x1F) ∧
      GPIO 0xFFFFFFFF 0xFFFFFFE3
        = (((0xFFFFFFFF : Nat) &&& 0x7) <<< 5) ||| ((0xFFFFFFE3 : Nat) &&& 0x1F) :=
  gpio_bit_layout 0xFFFFFFFF 0xFFFFFFE3 (by decide) (by decide)

/-- C3: decoding followed by encoding gives the identifier back.  For every
identifier `id` in 0..255, `GPIO(GPIO_PORT(id), GPIO_PIN(id)) = id`, with
`GPIO_PORT(id) < 8` and `GPIO_PIN(id) < 32`. -/
theorem gpio_decode_encode (id : Nat) (hid : id ≤ 255) :
    GPIO (GPIO_PORT id) (GPIO_PIN id) = id ∧ GPIO_PORT id < 8 ∧ GPIO_PIN id < 32 := by
  rw [GPIO_eq_arith, GPIO_PORT_eq_div, GPIO_PIN_eq_mod]
  omega

theorem gpio_decode_encode_witness :
    GPIO (GPIO_PORT 255) (GPIO_PIN 255) = 255 ∧ GPIO_PORT 255 < 8 ∧ GPIO_PIN 255 < 32 :=
  gpio_decode_encode 255 (by decide)

/-- C4, as stated, fails: the pin number 32 on port 0 does not give the
identifier of pin 0 on port 1.  `GPIO(0, 32) = 0` whereas `GPIO(1, 0) = 32`, so
"for every p in 0..6 and k in 0..31, GPIO(p, 32 + k) = GPIO(p + 1, k)" is false. -/
theorem gpio_pin_overflow_no_carry :
    GPIO 0 (32 + 0) = 0 ∧ GPIO (0 + 1) 0 = 32 ∧
      ¬ (∀ p k : Nat, p ≤ 6 → k ≤ 31 → GPIO p (32 + k) = GPIO (p + 1) k) := by
  refine ⟨by decide, by decide, ?_⟩
  intro h
  exact absurd (h 0 0 (by decide) (by decide)) (by decide)

/-- C4, amended: an out-of-range pin number silently aliases onto a pin of the
same group.  For every port `p` in 0..6 and every `k` in 0..31,
`GPIO(p, 32 + k) = GPIO(p, k) = 32 * p + k`: the mask reduces the pin number
modulo 32, nothing carries into the group index (the result differs from
`GPIO(p + 1, k)`), and the macro still returns an identifier below 256. -/
theorem gpio_pin_overflow_wraps (p k : Nat) (hp : p ≤ 6) (hk : k ≤ 31) :
    GPIO p (32 + k) = GPIO p k ∧ GPIO p (32 + k) = 32 * p + k ∧
      GPIO p (32 + k) ≠ GPIO (p + 1) k ∧ GPIO p (32 + k) < 256 := by
  simp only [GPIO_eq_arith]
  omega

theorem gpio_pin_overflow_wraps_witness :
    GPIO 6 (32 + 31) = GPIO 6 31 ∧ GPIO 6 (32 + 31) = 32 * 6 + 31 ∧
      GPIO 6 (32 + 31) ≠ GPIO (6 + 1) 31 ∧ GPIO 6 (32 + 31) < 256 :=
  gpio_pin_overflow_wraps 6 31 (by decide) (by decide)

/-- C8: decoding splits any identifier by Euclidean division by 32.  For every
unsigned 32-bit `id`, `GPIO_PIN(id) = id mod 32` (so the pin number is below 32),
`GPIO_PORT(id) = id div 32`, and `id = 32 * GPIO_PORT(id) + GPIO_PIN(id)`. -/
theorem gpio_decode_divmod (id : Nat) (_ : id < 2 ^ 32) :
    GPIO_PIN id = id % 32 ∧ GPIO_PIN id < 32 ∧ GPIO_PORT id = id / 32 ∧
      id = 32 * GPIO_PORT id + GPIO_PIN id := by
  rw [GPIO_PORT_eq_div, GPIO_PIN_eq_mod]
  omega

theorem gpio_decode_divmod_witness :
    GPIO_PIN 0xFFFFFFFF = 0xFFFFFFFF % 32 ∧ GPIO_PIN 0xFFFFFFFF < 32 ∧
      GPIO_PORT 0xFFFFFFFF = 0xFFFFFFFF / 32 ∧
      0xFFFFFFFF = 32 * GPIO_PORT 0xFFFFFFFF + GPIO_PIN 0xFFFFFFFF :=
  gpio_decode_divmod 0xFFFFFFFF (by decide)

/-- C9: `GPIO_PORT` does not mask its result to 3 bits while `GPIO` masks its
port argument.  For every unsigned 32-bit `id`, `GPIO_PORT(id) < 8` if and only
if `id < 256`, and `GPIO(GPIO_PORT(id), GPIO_PIN(id)) = id mod 256`; hence an
identifier of 256 or more decodes to a group index of 8 or more and re-encodes
to a different identifier. -/
theorem gpio_port_unmasked (id : Nat) (hid : id < 2 ^ 32) :
    (GPIO_PORT id < 8 ↔ id < 256) ∧
      GPIO (GPIO_PORT id) (GPIO_PIN id) = id % 256 ∧
      (256 ≤ id → 8 ≤ GPIO_PORT id ∧ GPIO (GPIO_PORT id) (GPIO_PIN id) ≠ id) := by
  rw [GPIO_eq_arith, GPIO_PORT_eq_div, GPIO_PIN_eq_mod]
  omega

theorem gpio_port_unmasked_witness :
    (GPIO_PORT 300 < 8 ↔ 300 < 256) ∧
      GPIO (GPIO_PORT 300) (GPIO_PIN 300) = 300 % 256 ∧
      (256 ≤ 300 → 8 ≤ GPIO_PORT 300 ∧ GPIO (GPIO_PORT 300) (GPIO_PIN 300) ≠ 300) :=
  gpio_port_unmasked 300 (by decide)

/-- C10: the encoding is strictly order-preserving, hence injective, on in-range
pairs.  For all ports `p1`, `p2` in 0..7 and pins `n1`, `n2` in 0..31,
`GPIO(p1, n1) < GPIO(p2, n2)` if and only if `p1 < p2`, or `p1 = p2` and
`n1 < n2`; two in-range pairs with the same identifier are the same pair. -/
theorem gpio_order_preserving (p1 n1 p2 n2 : Nat)
    (hp1 : p1 ≤ 7) (hn1 : n1 ≤ 31) (hp2 : p2 ≤ 7) (hn2 : n2 ≤ 31) :
    ( GPIO p1 n1 < GPIO p2 n2 ↔ p1 < p2 ∨ (p1 = p2 ∧ n1 < n2)) ∧
      ( GPIO p1 n1 = GPIO p2 n2 → p1 = p2 ∧ n1 = n2) := by
  simp only [GPIO_eq_arith]
  omega

theorem gpio_order_preserving_witness :
    ( GPIO 2 31 < GPIO 3 0 ↔ 2 < 3 ∨ (2 = 3 ∧ 31 < 0)) ∧
      ( GPIO 2 31 = GPIO 3 0 → 2 = 3 ∧ 31 = 0) :=
  gpio_order_preserving 2 31 3 0 (by decide) (by decide) (by decide) (by decide)

/-! ## Port state operations -/

theorem set_direction_other_port (s : PortState) (port g : gpio_port) (mask : Nat)
    (d : gpio_direction) (h : g ≠ port) : _gpio_set_direction s port mask d g = s g := by
  simp [_gpio_set_direction, h]

theorem toggle_level_same_port (s : PortState) (port : gpio_port) (mask : Nat) (i : Fin 32) :
    (_gpio_toggle_level s port mask port).out_latch i
      = Bool.xor ((s port).out_latch i) (mask.testBit i.val) := by
  simp [_gpio_toggle_level]

/-- C5: pull-mode side effect.  For every port, every pin in 0..31, every prior
port state and every pull mode other than `GPIO_PULL_OFF` (that is `GPIO_PULL_UP`
or `GPIO_PULL_DOWN`), after `_gpio_set_pin_pull_mode(port, pin, pull_mode)` the
direction of that pin is `GPIO_DIRECTION_IN`, whatever it was before; the pin
also carries the requested pull mode. -/
theorem pull_mode_forces_input (s : PortState) (port : gpio_port) (pin : Nat)
    (pull_mode : gpio_pull_mode) (hpin : pin < 32)
    (hmode : pull_mode ≠ gpio_pull_mode.GPIO_PULL_OFF) :
    pin_direction (_gpio_set_pin_pull_mode s port pin pull_mode) port ⟨pin, hpin⟩
        = gpio_direction.GPIO_DIRECTION_IN ∧
      (_gpio_set_pin_pull_mode s port pin pull_mode port).pull_mode ⟨pin, hpin⟩ = pull_mode := by
  simp [pin_direction, _gpio_set_pin_pull_mode, hmode]

theorem pull_mode_forces_input_witness :
    pin_direction sample_state gpio_port.GPIO_PORTC ⟨31, by decide⟩
        = gpio_direction.GPIO_DIRECTION_OUT ∧
      (pin_direction
          (_gpio_set_pin_pull_mode sample_state gpio_port.GPIO_PORTC 31
            gpio_pull_mode.GPIO_PULL_DOWN)
          gpio_port.GPIO_PORTC ⟨31, by decide⟩
        = gpio_direction.GPIO_DIRECTION_IN ∧
      (_gpio_set_pin_pull_mode sample_state gpio_port.GPIO_PORTC 31
          gpio_pull_mode.GPIO_PULL_DOWN gpio_port.GPIO_PORTC).pull_mode ⟨31, by decide⟩
        = gpio_pull_mode.GPIO_PULL_DOWN) :=
  ⟨rfl, pull_mode_forces_input sample_state gpio_port.GPIO_PORTC 31
    gpio_pull_mode.GPIO_PULL_DOWN (by decide) (by decide)⟩

/-- C6: toggle is an involution on the output latch.  For every port, every
32-bit mask and every prior port state, `_gpio_toggle_level(port, mask)` applied
twice restores the output latch bit of every pin in the mask (indeed of every
pin of the group), and one application leaves the latch bit of every pin
outside the mask as it was. -/
theorem toggle_twice_restores (s : PortState) (port : gpio_port) (mask : Nat)
    (_ : mask < 2 ^ 32) :
    (∀ i : Fin 32, mask.testBit i.val = true →
        pin_latch (_gpio_toggle_level (_gpio_toggle_level s port mask) port mask) port i
          = pin_latch s port i) ∧
      (∀ i : Fin 32,
        pin_latch (_gpio_toggle_level (_gpio_toggle_level s port mask) port mask) port i
          = pin_latch s port i) ∧
      (∀ i : Fin 32, mask.testBit i.val = false →
        pin_latch (_gpio_toggle_level s port mask) port i = pin_latch s port i) := by
  have twice : ∀ i : Fin 32,
      pin_latch (_gpio_toggle_level (_gpio_toggle_level s port mask) port mask) port i
        = pin_latch s port i := by
    intro i
    unfold pin_latch
    rw [toggle_level_same_port, toggle_level_same_port]
    cases (s port).out_latch i <;> cases mask.testBit i.val <;> rfl
  refine ⟨fun i _ => twice i, twice, ?_⟩
  intro i hi
  unfold pin_latch
  rw [toggle_level_same_port, hi]
  cases (s port).out_latch i <;> rfl

theorem toggle_twice_restores_witness :
    (∀ i : Fin 32, (0x80000005 : Nat).testBit i.val = true →
        pin_latch (_gpio_toggle_level
            (_gpio_toggle_level sample_state gpio_port.GPIO_PORTE 0x80000005)
            gpio_port.GPIO_PORTE 0x80000005) gpio_port.GPIO_PORTE i
          = pin_latch sample_state gpio_port.GPIO_PORTE i) ∧
      (∀ i : Fin 32,
        pin_latch (_gpio_toggle_level
            (_gpio_toggle_level sample_state gpio_port.GPIO_PORTE 0x80000005)
            gpio_port.GPIO_PORTE 0x80000005) gpio_port.GPIO_PORTE i
          = pin_latch sample_state gpio_port.GPIO_PORTE i) ∧
      (∀ i : Fin 32, (0x80000005 : Nat).testBit i.val = false →
        pin_latch (_gpio_toggle_level sample_state gpio_port.GPIO_PORTE 0x80000005)
            gpio_port.GPIO_PORTE i
          = pin_latch sample_state gpio_port.GPIO_PORTE i) :=
  toggle_twice_restores sample_state gpio_port.GPIO_PORTE 0x80000005 (by decide)

/-- C7: direction setting is idempotent.  For every port, every 32-bit mask,
every direction `d` among `GPIO_DIRECTION_OFF`, `GPIO_DIRECTION_IN`,
`GPIO_DIRECTION_OUT` and every prior port state, the port state after
`_gpio_set_direction(port, mask, d)` applied twice in succession equals the port
state after applying it once. -/
theorem set_direction_idempotent (s : PortState) (port : gpio_port) (mask : Nat)
    (d : gpio_direction) (_ : mask < 2 ^ 32) :
    _gpio_set_direction (_gpio_set_direction s port mask d) port mask d
      = _gpio_set_direction s port mask d := by
  funext g
  by_cases hg : g = port
  · subst hg
    simp only [_gpio_set_direction, if_true]
    congr 1
    funext i
    by_cases hb : mask.testBit i.val = true <;> simp [hb]
  · rw [set_direction_other_port _ port g mask d hg]

theorem set_direction_idempotent_witness :
    _gpio_set_direction
        (_gpio_set_direction sample_state gpio_port.GPIO_PORTB 0xFFFF0001
          gpio_direction.GPIO_DIRECTION_OFF)
        gpio_port.GPIO_PORTB 0xFFFF0001 gpio_direction.GPIO_DIRECTION_OFF
      = _gpio_set_direction sample_state gpio_port.GPIO_PORTB 0xFFFF0001
          gpio_direction.GPIO_DIRECTION_OFF :=
  set_direction_idempotent sample_state gpio_port.GPIO_PORTB 0xFFFF0001
    gpio_direction.GPIO_DIRECTION_OFF (by decide)

end HplGpio
